import Mathlib

/-!
# Verification of the vhcwallet legacy JSON-RPC command engine

This file gives a shallow embedding, in Lean 4, of the command dispatch and
transaction-construction engine of the vhcwallet daemon (package
`legacyrpc`), and proves the stated properties of that engine against the
embedding.

Modelling conventions:
* Go machine integers are modelled as `Nat`/`Int`, with explicit `% 2^32`
  where a Go conversion truncates.
* Fallible Go code returning `(T, error)` is modelled with `Except`.
* External collaborators that are not part of the embedded source (the
  wallet store, the consensus RPC client, the address codec) are modelled
  as oracle functions carried by an environment structure; the embedded
  functions are parametric in those oracles, exactly as the Go code is
  parametric in the behaviour of its collaborators.
* Side effects that the properties talk about (which previous-output
  lookups were issued, whether the signing primitive or the ticket-buyer
  start was invoked, which arguments were forwarded) are recorded in an
  explicit trace value returned next to the ordinary result.
-/

namespace VhcWallet

/-- Wire-visible RPC error codes used by the embedded handlers
(`vhcjson.ErrRPC*` constants). -/
inductive RPCErrorCode where
  | invalidParameter
  | deserialization
  | decodeHexString
  | clientNotConnected
  | walletErr
  | internal
  | walletUnlockNeeded
  | walletPassphraseIncorrect
  | walletInsufficientFunds
  | invalidRequest
  | unimplementedCode
  | walletInvalidAccountName
  deriving DecidableEq, Repr

/-- `vhcjson.RPCError`: an enumerated code plus a human-readable message. -/
structure RPCError where
  code : RPCErrorCode
  msg : String
  deriving DecidableEq, Repr

/-- `errUnloadedWallet` from rpcserver.go. -/
def errUnloadedWallet : RPCError :=
  ⟨.walletErr, "request requires a wallet but wallet has not loaded yet"⟩

/-- `errRPCClientNotConnected` from rpcserver.go. -/
def errRPCClientNotConnected : RPCError :=
  ⟨.clientNotConnected, "disconnected from consensus RPC"⟩

/-- `errAccountNotFound` from rpcserver.go. -/
def errAccountNotFound : RPCError :=
  ⟨.walletInvalidAccountName, "account not found"⟩

/-- Kinds of the internal `errors.Error` taxonomy that `convertError`
distinguishes. -/
inductive ErrKind where
  | bug
  | encoding
  | locked
  | passphrase
  | noPeers
  | insufficientBalance
  | other
  deriving DecidableEq, Repr

/-- A Go `error` value as seen at the RPC boundary: either already an
`*vhcjson.RPCError`, an internal `*errors.Error` with a kind, or a plain
error with only a message. -/
inductive GoError where
  | rpc (e : RPCError)
  | kind (k : ErrKind) (msg : String)
  | plain (msg : String)
  deriving DecidableEq, Repr

/-- Error type returned by the embedded handlers: a wire RPC error or a
plain Go error that the server layer would convert later. -/
abbrev WErr := GoError

/-- The code `convertError` assigns to each internal error kind
(default `ErrRPCWallet`). -/
def codeForKind : ErrKind → RPCErrorCode
  | .bug => .internal
  | .encoding => .invalidParameter
  | .locked => .walletUnlockNeeded
  | .passphrase => .walletPassphraseIncorrect
  | .noPeers => .clientNotConnected
  | .insufficientBalance => .walletInsufficientFunds
  | .other => .walletErr

/-- `convertError` from rpcserverhelp-adjacent errors.go: pass RPC errors
through unchanged, translate internal kinds, default to the wallet code. -/
def convertError : GoError → RPCError
  | .rpc e => e
  | .kind k msg => ⟨codeForKind k, msg⟩
  | .plain msg => ⟨.walletErr, msg⟩

/-! ## Hexadecimal decoding (`decodeHexStr` and Go `encoding/hex`) -/

/-- Go `encoding/hex.fromHexChar`: the value of one hex digit. -/
def fromHexChar (c : Char) : Option Nat :=
  if '0' ≤ c ∧ c ≤ '9' then some (c.toNat - '0'.toNat)
  else if 'a' ≤ c ∧ c ≤ 'f' then some (c.toNat - 'a'.toNat + 10)
  else if 'A' ≤ c ∧ c ≤ 'F' then some (c.toNat - 'A'.toNat + 10)
  else none

/-- Go `encoding/hex.DecodeString`: decodes pairs of hex digits; fails on a
non-hex digit or an odd number of digits. -/
def hexDecodeString : List Char → Option (List Nat)
  | [] => some []
  | [_] => none
  | c1 :: c2 :: rest =>
    match fromHexChar c1, fromHexChar c2, hexDecodeString rest with
    | some hi, some lo, some bs => some ((16 * hi + lo) :: bs)
    | _, _, _ => none

/-- The reassignment `hexStr = "0" + hexStr` performed by `decodeHexStr`
when the length is odd. -/
def padHex (l : List Char) : List Char :=
  if l.length % 2 ≠ 0 then '0' :: l else l

/-- `decodeHexStr` from rpcserver.go: left-pad a '0' nibble when the length
is odd, then decode; a decode failure becomes an `ErrRPCDecodeHexString`
RPC error. -/
def decodeHexStr (hexStr : String) : Except RPCError (List Nat) :=
  match hexDecodeString (padHex hexStr.data) with
  | some decoded => .ok decoded
  | none => .error ⟨.decodeHexString, "hex string decode failed"⟩

theorem padHex_even (l : List Char) (h : l.length % 2 = 0) : padHex l = l := by
  simp only [padHex]; rw [if_neg (by omega)]

theorem padHex_odd (l : List Char) (h : l.length % 2 = 1) : padHex l = '0' :: l := by
  simp only [padHex]; rw [if_pos (by omega)]

theorem padHex_length (l : List Char) : (padHex l).length % 2 = 0 := by
  simp only [padHex]
  by_cases h : l.length % 2 = 0
  · rw [if_neg (by omega)]; exact h
  · rw [if_pos (by omega)]; simp only [List.length_cons]; omega

theorem hexDecodeString_isSome_iff : ∀ (l : List Char), l.length % 2 = 0 →
    ((hexDecodeString l).isSome = true ↔ ∀ c ∈ l, (fromHexChar c).isSome = true)
  | [], _ => by simp [hexDecodeString]
  | [c], h => by simp at h
  | c1 :: c2 :: rest, h => by
    have hr : rest.length % 2 = 0 := by
      simp only [List.length_cons] at h; omega
    have ih := hexDecodeString_isSome_iff rest hr
    cases h1 : fromHexChar c1 <;> cases h2 : fromHexChar c2 <;>
      cases hrd : hexDecodeString rest <;>
      simp_all [hexDecodeString, h1, h2, hrd]

theorem fromHexChar_zero : (fromHexChar '0').isSome = true := by decide

/-- C9: every hex string crossing the RPC boundary through `decodeHexStr`
is repaired, when of odd length, by prepending a single '0' nibble before
decoding rather than being rejected for its length, and a decode error is
returned only when the string contains a non-hex character (success holds
exactly when every character is a hex digit). -/
theorem decodeHexStr_repairs_odd_and_fails_only_on_bad_digit (s : String) :
    (s.data.length % 2 = 1 →
      decodeHexStr s = decodeHexStr (String.mk ('0' :: s.data))) ∧
    ((∃ bs, decodeHexStr s = Except.ok bs) ↔
      ∀ c ∈ s.data, (fromHexChar c).isSome = true) := by
  constructor
  · intro hodd
    have h1 : ('0' :: s.data).length % 2 = 0 := by
      simp only [List.length_cons]; omega
    simp only [decodeHexStr, String.data]
    rw [padHex_odd _ hodd, padHex_even _ h1]
  · have hiff := hexDecodeString_isSome_iff _ (padHex_length s.data)
    constructor
    · rintro ⟨bs, hbs⟩
      have hsome : (hexDecodeString (padHex s.data)).isSome = true := by
        simp only [decodeHexStr] at hbs
        cases hd : hexDecodeString (padHex s.data) <;> rw [hd] at hbs
        · exact absurd hbs (by simp)
        · simp
      have hall := hiff.mp hsome
      intro c hc
      apply hall
      simp only [padHex]
      by_cases hpar : s.data.length % 2 = 0
      · rw [if_neg (by omega)]; exact hc
      · rw [if_pos (by omega)]; exact List.mem_cons_of_mem _ hc
    · intro hall
      have hall' : ∀ c ∈ padHex s.data, (fromHexChar c).isSome = true := by
        intro c hc
        simp only [padHex] at hc
        by_cases hpar : s.data.length % 2 = 0
        · rw [if_neg (by omega)] at hc; exact hall c hc
        · rw [if_pos (by omega)] at hc
          rcases List.mem_cons.mp hc with rfl | hc
          · exact fromHexChar_zero
          · exact hall c hc
      have hsome := hiff.mpr hall'
      simp only [decodeHexStr]
      cases hd : hexDecodeString (padHex s.data)
      · rw [hd] at hsome; simp at hsome
      · exact ⟨_, rfl⟩

/-- Witness for C9 at a concrete odd-length input. -/
theorem decodeHexStr_repairs_witness :
    decodeHexStr "f0f" = decodeHexStr (String.mk ('0' :: "f0f".data)) ∧
    (∃ bs, decodeHexStr "f0f" = Except.ok bs) :=
  ⟨(decodeHexStr_repairs_odd_and_fails_only_on_bad_digit "f0f").1 (by decide),
   (decodeHexStr_repairs_odd_and_fails_only_on_bad_digit "f0f").2.mpr (by decide)⟩

/-! ## Command dispatch and passthrough (`lazyApplyHandler`) -/

/-- A JSON-RPC request: method name and opaque parameters (modelled as the
raw parameter strings), as in `vhcjson.Request`. -/
structure Request where
  method : String
  params : List String
  deriving DecidableEq, Repr

/-- The key set of the process-wide `handlers` map from rpcserver.go, in
source order.  (The mapped handler functions are embedded separately; for
dispatch only membership of the method name matters.) -/
def handlerMethods : List String :=
  ["accountaddressindex", "accountsyncaddressindex", "addmultisigaddress",
   "addticket", "consolidate", "createmultisig", "dumpprivkey",
   "generatevote", "getaccount", "getaccountaddress",
   "getaddressesbyaccount", "getbalance", "getbestblockhash",
   "getblockcount", "getinfo", "getmasterpubkey", "getmultisigoutinfo",
   "getnewaddress", "getrawchangeaddress", "getreceivedbyaccount",
   "getreceivedbyaddress", "getstakeinfo", "getticketfee", "gettickets",
   "gettransaction", "getvotechoices", "getwalletfee", "help",
   "importprivkey", "importscript", "keypoolrefill", "listaccounts",
   "listlockunspent", "listreceivedbyaccount", "listreceivedbyaddress",
   "listsinceblock", "listscripts", "listtransactions", "listunspent",
   "lockunspent", "purchaseticket", "rescanwallet", "revoketickets",
   "sendfrom", "sendmany", "sendtoaddress", "sendtomultisig",
   "setticketfee", "settxfee", "setvotechoice", "signmessage",
   "signrawtransaction", "signrawtransactions", "startautobuyer",
   "stopautobuyer", "sweepaccount", "redeemmultisigout",
   "redeemmultisigouts", "stakepooluserinfo", "ticketsforaddress",
   "validateaddress", "verifymessage", "version", "walletinfo",
   "walletlock", "walletpassphrase", "walletpassphrasechange",
   "getbestblock", "createnewaccount", "getunconfirmedbalance",
   "listaddresstransactions", "listalltransactions", "renameaccount",
   "walletislocked", "backupwallet", "getwalletinfo", "importwallet",
   "listaddressgroupings", "dumpwallet", "encryptwallet", "move",
   "setaccount"]

/-- The consensus RPC client obtained by `chain.RPCClientFromBackend`:
its `RawRequest` method, as an oracle. -/
structure RpcChainClient where
  rawRequest : String → List String → Except GoError String

/-- A network backend handle; `rpcClient` is `some` exactly when
`chain.RPCClientFromBackend` succeeds on it. -/
structure NetBackend where
  rpcClient : Option RpcChainClient

/-- The parts of `*Server` that `lazyApplyHandler` consults for an unknown
method: the optional network backend from the wallet loader. -/
structure DispatchEnv where
  networkBackend : Option NetBackend

/-- Result of invoking the closure returned by `lazyApplyHandler`.
`localDispatch` marks the known-method path, whose handler execution is
embedded separately per handler. -/
inductive LazyHandlerResult where
  | localDispatch
  | ok (resp : String)
  | err (e : RPCError)
  deriving DecidableEq, Repr

/-- Trace of the passthrough path: the method and parameters forwarded to
the remote node's `RawRequest`, if any call was made. -/
structure DispatchTrace where
  forwarded : Option (String × List String)
  deriving DecidableEq, Repr

/-- `lazyApplyHandler` from rpcserver.go, restricted to the observable
behaviour of the returned closure.  An unknown method attempts RPC
passthrough: absent a network backend it fails with
`errRPCClientNotConnected`; with a backend but no consensus RPC client it
fails with a client-not-connected error; otherwise the raw method and
parameters are forwarded and the response or its converted error is
relayed. -/
def lazyApplyHandler (env : DispatchEnv) (req : Request) :
    LazyHandlerResult × DispatchTrace :=
  if handlerMethods.contains req.method = true then
    (.localDispatch, ⟨none⟩)
  else
    match env.networkBackend with
    | none => (.err errRPCClientNotConnected, ⟨none⟩)
    | some n =>
      match n.rpcClient with
      | none =>
        (.err ⟨.clientNotConnected,
          "RPC passthrough requires vhcd RPC synchronization"⟩, ⟨none⟩)
      | some c =>
        match c.rawRequest req.method req.params with
        | .error e => (.err (convertError e), ⟨some (req.method, req.params)⟩)
        | .ok resp => (.ok resp, ⟨some (req.method, req.params)⟩)

/-! ## Transaction model and the signing resolver (`signRawTransaction`) -/

/-- `wire.OutPoint`: (transaction hash, output index, output tree), with
structural equality.  Hashes are abstracted to `Nat`. -/
structure OutPoint where
  hash : Nat
  index : Nat
  tree : Int
  deriving DecidableEq, Repr

/-- `wire.TxIn`: the parts read by the embedded code. -/
structure TxIn where
  prevOut : OutPoint
  sigScript : List Nat
  sequence : Nat
  deriving DecidableEq, Repr

/-- `wire.MsgTx`: the transaction skeleton (only inputs are consulted by
the signing resolver). -/
structure MsgTx where
  txIns : List TxIn
  deriving DecidableEq, Repr

/-- Zero value of `wire.TxIn`. -/
def defaultTxIn : TxIn := ⟨⟨0, 0, 0⟩, [], 0⟩

abbrev Script := List Nat

/-- A Go `map[OutPoint][]byte`, as an association list with
overwrite-on-insert. -/
abbrev InputsMap := List (OutPoint × Script)

/-- A Go `map[string][]byte`. -/
abbrev ScriptsMap := List (String × Script)

/-- Go map assignment `m[k] = v`: replace an existing binding, else add. -/
def insertA {α β : Type} [DecidableEq α] :
    List (α × β) → α → β → List (α × β)
  | [], k, v => [(k, v)]
  | (k', v') :: rest, k, v =>
    if k' = k then (k, v) :: rest else (k', v') :: insertA rest k v

/-- Go map lookup `m[k]`. -/
def lookupA {α β : Type} [DecidableEq α] : List (α × β) → α → Option β
  | [], _ => none
  | (k', v') :: rest, k => if k' = k then some v' else lookupA rest k

/-- `txscript.SigHashAll`. -/
def sigHashAll : Nat := 1
/-- `txscript.SigHashNone`. -/
def sigHashNone : Nat := 2
/-- `txscript.SigHashSingle`. -/
def sigHashSingle : Nat := 3
/-- `txscript.SigHashAnyOneCanPay`. -/
def sigHashAnyOneCanPay : Nat := 0x80

/-- The sighash-flag switch at the top of `signRawTransaction`: the fixed
set of accepted flag strings and the mode each resolves to; `ssgen` and
`ssrtx` are special cases of `SigHashAll`. -/
def hashTypeOfFlag (f : String) : Option Nat :=
  if f = "ALL" then some sigHashAll
  else if f = "NONE" then some sigHashNone
  else if f = "SINGLE" then some sigHashSingle
  else if f = "ALL|ANYONECANPAY" then some (sigHashAll ||| sigHashAnyOneCanPay)
  else if f = "NONE|ANYONECANPAY" then some (sigHashNone ||| sigHashAnyOneCanPay)
  else if f = "SINGLE|ANYONECANPAY" then some (sigHashSingle ||| sigHashAnyOneCanPay)
  else if f = "ssgen" then some sigHashAll
  else if f = "ssrtx" then some sigHashAll
  else none

/-- The flag strings accepted verbatim, per the spec's interface section. -/
def validSigHashFlags : List String :=
  ["ALL", "NONE", "SINGLE", "ALL|ANYONECANPAY", "NONE|ANYONECANPAY",
   "SINGLE|ANYONECANPAY", "ssgen", "ssrtx"]

/-- `vhcjson.RawTxInput`: one explicit caller-supplied input. -/
structure RawTxInput where
  txid : String
  vout : Nat
  tree : Int
  scriptPubKey : String
  redeemScript : String
  deriving DecidableEq, Repr

/-- `vhcjson.SignRawTransactionCmd`.  `flags` models the dereferenced
`*cmd.Flags` (defaulted to "ALL" by the command codec). -/
structure SignRawTransactionCmd where
  rawTx : String
  inputs : Option (List RawTxInput)
  privKeys : Option (List String)
  flags : String
  deriving DecidableEq, Repr

/-- A decoded WIF private key, as the embedded code observes it: whether
it is valid for the active network, and the address its public key
derives to (`none` when the address constructor fails). -/
structure WIF where
  isForNet : Bool
  addr : Option String
  deriving DecidableEq, Repr

abbrev KeysMap := List (String × WIF)

/-- One per-input failure reported by the wallet's signing primitive
(`wallet.SignTransaction`). -/
structure SignErrI where
  inputIndex : Nat
  errMsg : String
  deriving DecidableEq, Repr

/-- The remote `gettxout` response body consulted by the resolver. -/
structure GetTxOutResult where
  scriptPubKeyHex : String
  deriving DecidableEq, Repr

/-- Collaborator oracles consumed by `signRawTransaction`:
the wallet loader, the transaction codec, the address codec, the optional
consensus RPC client (`rpcAvailable` is true exactly when
`chain.RPCClientFromBackend` succeeds), the per-outpoint `gettxout`
responses (`Except.error` = transport-level failure, `Except.ok none` =
valid "no such output" null response), the WIF codec, the wallet signing
primitive (which returns the mutated transaction plus its per-input
failures), and the transaction serializer. -/
structure SignEnv where
  walletLoaded : Bool
  parseTx : String → Option MsgTx
  parseHash : String → Option Nat
  newAddressScriptHash : Script → Option String
  rpcAvailable : Bool
  getTxOut : OutPoint → Except String (Option GetTxOutResult)
  decodeWIF : String → Option WIF
  signTransaction : MsgTx → Nat → InputsMap → KeysMap → ScriptsMap →
    Except String (MsgTx × List SignErrI)
  serializeTx : MsgTx → String

/-- One entry of the `Errors` array in the reply (structured fields in
place of their string renderings). -/
structure SignRawTransactionError where
  txid : Nat
  vout : Nat
  scriptSig : Script
  sequence : Nat
  errMsg : String
  deriving DecidableEq, Repr

/-- `vhcjson.SignRawTransactionResult`. -/
structure SignRawTransactionResult where
  hex : String
  complete : Bool
  errors : List SignRawTransactionError
  deriving DecidableEq, Repr

/-- Effects of one `signRawTransaction` call: the previous-output lookups
issued (in input order, one per requesting call), whether the wallet
signing primitive was invoked, and, when it was invoked and returned,
the mutated transaction and its reported per-input failures. -/
structure SignTrace where
  lookupCalls : List OutPoint
  signCalled : Bool
  signOutput : Option (MsgTx × List SignErrI)
  deriving DecidableEq, Repr

/-- The empty trace (no lookups, signing never reached). -/
def noSignTrace : SignTrace := ⟨[], false, none⟩

/-- `cmd.PrivKeys != nil && len(*cmd.PrivKeys) != 0`: explicit redeem
scripts are collected only when explicit private keys are supplied. -/
def privKeysPresent (cmd : SignRawTransactionCmd) : Bool :=
  match cmd.privKeys with
  | some l => decide (l.length ≠ 0)
  | none => false

/-- The loop over `*cmd.Inputs`: parse each explicit input's txid and
locking script, optionally collect its redeem script under its P2SH
address (only when explicit keys were supplied), and record the locking
script under the input's outpoint. -/
def buildExplicitInputsList (env : SignEnv) (withKeys : Bool) :
    List RawTxInput → InputsMap → ScriptsMap →
    Except WErr (InputsMap × ScriptsMap)
  | [], inputs, scripts => .ok (inputs, scripts)
  | rti :: rest, inputs, scripts =>
    match env.parseHash rti.txid with
    | none => .error (.rpc ⟨.invalidParameter, "invalid txid hash"⟩)
    | some h =>
      match decodeHexStr rti.scriptPubKey with
      | .error e => .error (.rpc e)
      | .ok script =>
        match (if withKeys = true then
            match decodeHexStr rti.redeemScript with
            | .error e => .error (.rpc e)
            | .ok redeemScript =>
              match env.newAddressScriptHash redeemScript with
              | none => .error (.plain "new address script hash")
              | some a => .ok (insertA scripts a redeemScript)
          else .ok scripts : Except WErr ScriptsMap) with
        | .error e => .error e
        | .ok scripts' =>
          buildExplicitInputsList env withKeys rest
            (insertA inputs ⟨h, rti.vout, rti.tree⟩ script) scripts'

/-- Builds the `SigningInputSet` from explicit caller data
(`inputs`/`scripts` maps in `signRawTransaction`). -/
def buildExplicitInputs (env : SignEnv) (cmd : SignRawTransactionCmd) :
    Except WErr (InputsMap × ScriptsMap) :=
  buildExplicitInputsList env (privKeysPresent cmd)
    ((cmd.inputs).getD []) [] []

/-- The fan-out loop: for each transaction input (with running index),
skip index 0 for the `ssgen` flag, skip inputs already covered by the
explicit map, and issue one asynchronous `gettxout` request for each of
the rest, in input order. -/
def issueLookups (flags : String) : Nat → List TxIn → InputsMap →
    List OutPoint
  | _, [], _ => []
  | i, txIn :: rest, inputs =>
    if i == 0 && flags == "ssgen" then issueLookups flags (i + 1) rest inputs
    else
      match lookupA inputs txIn.prevOut with
      | some _ => issueLookups flags (i + 1) rest inputs
      | none => txIn.prevOut :: issueLookups flags (i + 1) rest inputs

/-- The lookups issued by one call: none at all unless a consensus RPC
client is available. -/
def lookupCallsOf (env : SignEnv) (flags : String) (txIns : List TxIn)
    (inputs : InputsMap) : List OutPoint :=
  if env.rpcAvailable = true then issueLookups flags 0 txIns inputs else []

/-- The loop over `*cmd.PrivKeys`: decode each WIF, reject keys for the
wrong network, derive the paying address, and record the key under it. -/
def parseKeysList (env : SignEnv) : List String → KeysMap →
    Except WErr KeysMap
  | [], keys => .ok keys
  | k :: rest, keys =>
    match env.decodeWIF k with
    | none => .error (.rpc ⟨.deserialization, "decode WIF"⟩)
    | some wif =>
      if wif.isForNet = false then
        .error (.rpc ⟨.invalidParameter, "key intended for different network"⟩)
      else
        match wif.addr with
        | none => .error (.plain "address for key")
        | some a => parseKeysList env rest (insertA keys a wif)

/-- Key parsing: a `nil` key list leaves the key map `nil` (the wallet's
own keys are consulted by the signing primitive instead). -/
def parseKeys (env : SignEnv) (cmd : SignRawTransactionCmd) :
    Except WErr KeysMap :=
  match cmd.privKeys with
  | none => .ok []
  | some ks => parseKeysList env ks []

/-- The await loop over outstanding `gettxout` requests: a transport
error is fatal for the whole call; a JSON null result (output unknown or
spent) leaves that input unresolved; a found output has its locking
script hex-decoded and recorded. -/
def awaitLookups (env : SignEnv) : List OutPoint → InputsMap →
    Except WErr InputsMap
  | [], inputs => .ok inputs
  | op :: rest, inputs =>
    match env.getTxOut op with
    | .error e => .error (.plain e)
    | .ok none => awaitLookups env rest inputs
    | .ok (some res) =>
      match hexDecodeString res.scriptPubKeyHex.data with
      | none => .error (.rpc ⟨.decodeHexString, "gettxout script hex"⟩)
      | some script => awaitLookups env rest (insertA inputs op script)

/-- One entry of the reply's `Errors` array, built from a per-input
failure.  (Go indexes `tx.TxIn[e.InputIndex]`; the signing primitive's
contract keeps the index in range, which `getD` models totally.) -/
def mkSignRawTransactionError (tx : MsgTx) (e : SignErrI) :
    SignRawTransactionError :=
  let input := tx.txIns.getD e.inputIndex defaultTxIn
  ⟨input.prevOut.hash, input.prevOut.index, input.sigScript,
   input.sequence, e.errMsg⟩

/-- `signRawTransaction` from rpcserver.go, with its observable effects
traced: require a loaded wallet, deserialize the skeleton, validate the
sighash flag, collect explicit inputs, fan out `gettxout` lookups for
uncovered inputs when a consensus RPC client is available, parse explicit
keys, await the lookups, sign once, and serialize the result regardless
of per-input failures, reporting `Complete = (len(Errors) == 0)`. -/
def signRawTransactionT (env : SignEnv) (cmd : SignRawTransactionCmd) :
    Except WErr SignRawTransactionResult × SignTrace :=
  if env.walletLoaded = true then
    match env.parseTx cmd.rawTx with
    | none => (.error (.rpc ⟨.deserialization, "deserialize tx"⟩), noSignTrace)
    | some tx =>
      match hashTypeOfFlag cmd.flags with
      | none =>
        (.error (.rpc ⟨.invalidParameter, "invalid sighash flag"⟩), noSignTrace)
      | some hashType =>
        match buildExplicitInputs env cmd with
        | .error e => (.error e, noSignTrace)
        | .ok (inputs, scripts) =>
          let calls := lookupCallsOf env cmd.flags tx.txIns inputs
          match parseKeys env cmd with
          | .error e => (.error e, ⟨calls, false, none⟩)
          | .ok keys =>
            match awaitLookups env calls inputs with
            | .error e => (.error e, ⟨calls, false, none⟩)
            | .ok inputs' =>
              match env.signTransaction tx hashType inputs' keys scripts with
              | .error e => (.error (.plain e), ⟨calls, true, none⟩)
              | .ok (tx', signErrs) =>
                let signErrors := signErrs.map (mkSignRawTransactionError tx')
                (.ok ⟨env.serializeTx tx', signErrors.length == 0, signErrors⟩,
                 ⟨calls, true, some (tx', signErrs)⟩)
  else (.error (.rpc errUnloadedWallet), noSignTrace)

/-- C4: for every request whose method is absent from the handler mapping,
if no network backend is attached the dispatched closure returns the
"client not connected" RPC error (never a success); if a network backend
with a consensus RPC client is attached, the raw method name and
parameters are forwarded verbatim and the remote response or its
(converted) error is relayed. -/
theorem lazyApplyHandler_unknown_method (env : DispatchEnv) (req : Request)
    (h : handlerMethods.contains req.method = false) :
    (env.networkBackend = none →
      lazyApplyHandler env req = (.err errRPCClientNotConnected, ⟨none⟩)) ∧
    (∀ n c, env.networkBackend = some n → n.rpcClient = some c →
      (lazyApplyHandler env req).2.forwarded = some (req.method, req.params) ∧
      (lazyApplyHandler env req).1 =
        (match c.rawRequest req.method req.params with
         | .ok resp => .ok resp
         | .error e => .err (convertError e))) := by
  have h' : req.method ∉ handlerMethods := by simpa using h
  constructor
  · intro hb
    simp [lazyApplyHandler, h', hb]
  · intro n c hb hc
    cases hr : c.rawRequest req.method req.params <;>
      simp [lazyApplyHandler, h', hb, hc, hr]

/-- A request whose method is not in the handler mapping. -/
def reqUnknown : Request := ⟨"getblockheader", ["deadbeef", "true"]⟩

/-- Dispatch environment with no network backend attached. -/
def envNoBackend : DispatchEnv := ⟨none⟩

/-- Dispatch environment whose backend carries a consensus RPC client that
echoes the forwarded method name. -/
def envWithClient : DispatchEnv :=
  ⟨some ⟨some ⟨fun m _ => .ok m⟩⟩⟩

/-- Witness for C4 at a concrete unknown method, in both backend states. -/
theorem lazyApplyHandler_unknown_method_witness :
    lazyApplyHandler envNoBackend reqUnknown =
      (.err errRPCClientNotConnected, ⟨none⟩) ∧
    (lazyApplyHandler envWithClient reqUnknown).2.forwarded =
      some ("getblockheader", ["deadbeef", "true"]) :=
  ⟨(lazyApplyHandler_unknown_method envNoBackend reqUnknown (by decide)).1 rfl,
   ((lazyApplyHandler_unknown_method envWithClient reqUnknown
      (by decide)).2 _ _ rfl rfl).1⟩

theorem hashTypeOfFlag_isSome_iff (f : String) :
    (hashTypeOfFlag f).isSome = true ↔ f ∈ validSigHashFlags := by
  simp only [hashTypeOfFlag, validSigHashFlags]
  split_ifs <;> simp_all

/-- C2: `signRawTransaction` accepts exactly the sighash flag strings
ALL, NONE, SINGLE, ALL|ANYONECANPAY, NONE|ANYONECANPAY,
SINGLE|ANYONECANPAY, ssgen and ssrtx, with ssgen and ssrtx both resolving
to the ALL mode; for any other flag string (the wallet being loaded and
the transaction deserializable, so that the flag switch is reached) the
call returns an invalid-parameter error with an empty trace: no prevout
lookup is issued and signing is never invoked. -/
theorem signRawTransaction_sighash_flags (env : SignEnv)
    (cmd : SignRawTransactionCmd) (tx : MsgTx)
    (hw : env.walletLoaded = true)
    (htx : env.parseTx cmd.rawTx = some tx) :
    (∀ f : String, (hashTypeOfFlag f).isSome = true ↔ f ∈ validSigHashFlags) ∧
    hashTypeOfFlag "ssgen" = some sigHashAll ∧
    hashTypeOfFlag "ssrtx" = some sigHashAll ∧
    (cmd.flags ∉ validSigHashFlags →
      signRawTransactionT env cmd =
        (.error (.rpc ⟨.invalidParameter, "invalid sighash flag"⟩),
         noSignTrace)) := by
  refine ⟨hashTypeOfFlag_isSome_iff, by decide, by decide, ?_⟩
  intro hbad
  have hf : hashTypeOfFlag cmd.flags = none := by
    cases hh : hashTypeOfFlag cmd.flags
    · rfl
    · exact absurd ((hashTypeOfFlag_isSome_iff cmd.flags).mp
        (by rw [hh]; rfl)) hbad
  simp [signRawTransactionT, hw, htx, hf]

/-- A signing environment whose oracles are all trivially successful, with
no consensus RPC client attached. -/
def envSignBasic : SignEnv where
  walletLoaded := true
  parseTx := fun _ => some ⟨[]⟩
  parseHash := fun _ => some 0
  newAddressScriptHash := fun _ => some "p2sh"
  rpcAvailable := false
  getTxOut := fun _ => .ok none
  decodeWIF := fun _ => some ⟨true, some "addr"⟩
  signTransaction := fun tx _ _ _ _ => .ok (tx, [])
  serializeTx := fun _ => "cafe"

/-- A command carrying an unrecognized sighash flag. -/
def cmdBogusFlag : SignRawTransactionCmd := ⟨"00", none, none, "BOGUS"⟩

/-- Witness for C2: a concrete bogus flag is rejected with the
invalid-parameter error and an empty trace. -/
theorem signRawTransaction_sighash_flags_witness :
    signRawTransactionT envSignBasic cmdBogusFlag =
      (.error (.rpc ⟨.invalidParameter, "invalid sighash flag"⟩),
       noSignTrace) :=
  (signRawTransaction_sighash_flags envSignBasic cmdBogusFlag ⟨[]⟩
    rfl rfl).2.2.2 (by decide)

/-- C1: for every invocation of `signRawTransaction` that reaches the
signing step (the signing primitive was invoked and reported its
per-input failures `es`), the returned result's `Complete` flag is true
iff the primitive reported zero failures, and the serialized transaction
is returned in the result in either case. -/
theorem signRawTransaction_complete_iff_no_failures (env : SignEnv)
    (cmd : SignRawTransactionCmd) (tx' : MsgTx) (es : List SignErrI)
    (h : (signRawTransactionT env cmd).2.signOutput = some (tx', es)) :
    ∃ r, (signRawTransactionT env cmd).1 = .ok r ∧
      (r.complete = true ↔ es = []) ∧
      r.hex = env.serializeTx tx' ∧
      r.errors.length = es.length := by
  cases hw : env.walletLoaded <;>
    simp only [signRawTransactionT, hw, Bool.false_eq_true, if_false,
      if_true] at h ⊢
  · simp [noSignTrace] at h
  · cases htx : env.parseTx cmd.rawTx <;> simp only [htx] at h ⊢
    · simp [noSignTrace] at h
    · cases hf : hashTypeOfFlag cmd.flags <;> simp only [hf] at h ⊢
      · simp [noSignTrace] at h
      · cases hbi : buildExplicitInputs env cmd <;> simp only [hbi] at h ⊢
        · simp [noSignTrace] at h
        · case _ tx ht v =>
          obtain ⟨inputs, scripts⟩ := v
          cases hk : parseKeys env cmd <;> simp only [hk] at h ⊢
          · simp at h
          · case _ keys =>
            cases ha : awaitLookups env
                (lookupCallsOf env cmd.flags tx.txIns inputs) inputs <;>
              simp only [ha] at h ⊢
            · simp at h
            · case _ inputs' =>
              cases hs : env.signTransaction tx ht inputs' keys scripts <;>
                simp only [hs] at h ⊢
              · simp at h
              · case _ p =>
                obtain ⟨tx2, signErrs⟩ := p
                simp only [Option.some.injEq, Prod.mk.injEq] at h
                obtain ⟨rfl, rfl⟩ := h
                refine ⟨_, rfl, ?_, rfl, by simp⟩
                simp [List.length_eq_zero]

/-- A command with the plain ALL sighash flag and no explicit data. -/
def cmdAllFlag : SignRawTransactionCmd := ⟨"00", none, none, "ALL"⟩

/-- Witness for C1: a concrete call that reaches signing with zero
per-input failures yields `Complete = true` and the serialized hex. -/
theorem signRawTransaction_complete_witness :
    ∃ r, (signRawTransactionT envSignBasic cmdAllFlag).1 = .ok r ∧
      (r.complete = true ↔ ([] : List SignErrI) = []) ∧
      r.hex = envSignBasic.serializeTx ⟨[]⟩ ∧
      r.errors.length = ([] : List SignErrI).length :=
  signRawTransaction_complete_iff_no_failures envSignBasic cmdAllFlag
    ⟨[]⟩ [] rfl

theorem awaitLookups_isError_of_transport (env : SignEnv) :
    ∀ (l : List OutPoint) (inputs : InputsMap),
      (∃ op ∈ l, ∃ e, env.getTxOut op = .error e) →
      ∃ e', awaitLookups env l inputs = .error e'
  | [], _, h => by simp at h
  | op :: rest, inputs, h => by
    rcases h with ⟨op', hmem, e, he⟩
    cases hg : env.getTxOut op
    case error e0 => exact ⟨.plain e0, by simp [awaitLookups, hg]⟩
    case ok o =>
      have hmem' : op' ∈ rest := by
        rcases List.mem_cons.mp hmem with rfl | hm
        · rw [hg] at he; simp at he
        · exact hm
      cases o
      · have := awaitLookups_isError_of_transport env rest inputs
          ⟨op', hmem', e, he⟩
        simpa [awaitLookups, hg] using this
      case some res =>
        cases hd : hexDecodeString res.scriptPubKeyHex.data
        case none =>
          exact ⟨.rpc ⟨.decodeHexString, "gettxout script hex"⟩,
            by simp [awaitLookups, hg, hd]⟩
        case some bs =>
          have := awaitLookups_isError_of_transport env rest
            (insertA inputs op bs) ⟨op', hmem', e, he⟩
          simpa [awaitLookups, hg, hd] using this

theorem awaitLookups_all_nil (env : SignEnv) :
    ∀ (l : List OutPoint) (inputs : InputsMap),
      (∀ op ∈ l, env.getTxOut op = .ok none) →
      awaitLookups env l inputs = .ok inputs
  | [], _, _ => rfl
  | op :: rest, inputs, h => by
    have h0 := h op (List.mem_cons_self op rest)
    have hrest := awaitLookups_all_nil env rest inputs
      (fun o ho => h o (List.mem_cons_of_mem _ ho))
    simp [awaitLookups, h0, hrest]

/-- C5: awaiting the fanned-out prevout lookups, any transport-level
failure on one of them makes the whole call fail with an error before
signing is attempted, whereas all-null responses (valid "no such output")
leave the explicit input set unchanged — the missing inputs stay
unresolved — and the operation continues to the signing step. -/
theorem signRawTransaction_lookup_failures (env : SignEnv)
    (cmd : SignRawTransactionCmd) (tx : MsgTx) (ht : Nat)
    (inputs : InputsMap) (scripts : ScriptsMap) (keys : KeysMap)
    (hw : env.walletLoaded = true)
    (htx : env.parseTx cmd.rawTx = some tx)
    (hf : hashTypeOfFlag cmd.flags = some ht)
    (hbi : buildExplicitInputs env cmd = .ok (inputs, scripts))
    (hk : parseKeys env cmd = .ok keys) :
    ((∃ op ∈ lookupCallsOf env cmd.flags tx.txIns inputs, ∃ e,
        env.getTxOut op = .error e) →
      (∃ e', (signRawTransactionT env cmd).1 = .error e') ∧
      (signRawTransactionT env cmd).2.signCalled = false) ∧
    ((∀ op ∈ lookupCallsOf env cmd.flags tx.txIns inputs,
        env.getTxOut op = .ok none) →
      awaitLookups env (lookupCallsOf env cmd.flags tx.txIns inputs)
          inputs = .ok inputs ∧
      (signRawTransactionT env cmd).2.signCalled = true) := by
  constructor
  · intro hfail
    obtain ⟨e', ha⟩ := awaitLookups_isError_of_transport env _ inputs hfail
    simp [signRawTransactionT, hw, htx, hf, hbi, hk, ha]
  · intro hnil
    have ha := awaitLookups_all_nil env _ inputs hnil
    refine ⟨ha, ?_⟩
    cases hs : env.signTransaction tx ht inputs keys scripts <;>
      simp [signRawTransactionT, hw, htx, hf, hbi, hk, ha, hs]

/-- An outpoint referenced by the one-input transaction used in the
signing witnesses. -/
def opW : OutPoint := ⟨5, 0, 0⟩

/-- A one-input transaction skeleton. -/
def txW : MsgTx := ⟨[⟨opW, [], 0⟩]⟩

/-- A signing environment with a consensus RPC client whose `gettxout`
always fails at the transport level. -/
def envSignFailingLookup : SignEnv :=
  { envSignBasic with
    parseTx := fun _ => some txW
    rpcAvailable := true
    getTxOut := fun _ => .error "connection reset" }

/-- Witness for C5: with a failing lookup the whole concrete call errors
and signing is never invoked. -/
theorem signRawTransaction_lookup_failures_witness :
    (∃ e', (signRawTransactionT envSignFailingLookup cmdAllFlag).1 =
      .error e') ∧
    (signRawTransactionT envSignFailingLookup cmdAllFlag).2.signCalled =
      false :=
  (signRawTransaction_lookup_failures envSignFailingLookup cmdAllFlag
    txW sigHashAll [] [] [] rfl rfl rfl rfl rfl).1
    ⟨opW, by decide, "connection reset", rfl⟩

theorem issueLookups_eq_enumFrom (flags : String) :
    ∀ (i : Nat) (txIns : List TxIn) (inputs : InputsMap),
      issueLookups flags i txIns inputs =
        ((List.enumFrom i txIns).filter (fun p =>
            !(p.1 == 0 && flags == "ssgen") &&
            (lookupA inputs p.2.prevOut).isNone)).map (fun p => p.2.prevOut)
  | _, [], _ => rfl
  | i, txIn :: rest, inputs => by
    have ih := issueLookups_eq_enumFrom flags (i + 1) rest inputs
    simp only [issueLookups, List.enumFrom, List.filter_cons]
    cases hskip : (i == 0 && flags == "ssgen")
    case true => simp [ih]
    case false =>
      cases hl : lookupA inputs txIn.prevOut
      case none => simp [ih]
      case some s => simp [ih]

theorem signRawTransactionT_trace_lookupCalls (env : SignEnv)
    (cmd : SignRawTransactionCmd) (tx : MsgTx) (ht : Nat)
    (inputs : InputsMap) (scripts : ScriptsMap)
    (hw : env.walletLoaded = true)
    (htx : env.parseTx cmd.rawTx = some tx)
    (hf : hashTypeOfFlag cmd.flags = some ht)
    (hbi : buildExplicitInputs env cmd = .ok (inputs, scripts)) :
    (signRawTransactionT env cmd).2.lookupCalls =
      lookupCallsOf env cmd.flags tx.txIns inputs := by
  cases hk : parseKeys env cmd
  · simp [signRawTransactionT, hw, htx, hf, hbi, hk]
  · case _ keys =>
    cases ha : awaitLookups env (lookupCallsOf env cmd.flags tx.txIns inputs)
        inputs
    · simp [signRawTransactionT, hw, htx, hf, hbi, hk, ha]
    · case _ inputs' =>
      cases hs : env.signTransaction tx ht inputs' keys scripts
      · simp [signRawTransactionT, hw, htx, hf, hbi, hk, ha, hs]
      · case _ p =>
        obtain ⟨tx2, signErrs⟩ := p
        simp [signRawTransactionT, hw, htx, hf, hbi, hk, ha, hs]

/-- C8: when a consensus RPC client is available, one asynchronous
prevout lookup is issued for exactly those transaction inputs whose
outpoint is not covered by the explicit caller-supplied inputs, in input
order, except that input index 0 is skipped when the flag is "ssgen";
inputs covered by explicit data are never looked up; and no lookup at all
is issued when no client is attached. -/
theorem signRawTransaction_fanout (env : SignEnv)
    (cmd : SignRawTransactionCmd) (tx : MsgTx) (ht : Nat)
    (inputs : InputsMap) (scripts : ScriptsMap)
    (hw : env.walletLoaded = true)
    (htx : env.parseTx cmd.rawTx = some tx)
    (hf : hashTypeOfFlag cmd.flags = some ht)
    (hbi : buildExplicitInputs env cmd = .ok (inputs, scripts)) :
    ((signRawTransactionT env cmd).2.lookupCalls =
      if env.rpcAvailable = true then
        ((tx.txIns.enum.filter (fun p =>
            !(p.1 == 0 && cmd.flags == "ssgen") &&
            (lookupA inputs p.2.prevOut).isNone)).map (fun p => p.2.prevOut))
      else []) ∧
    (∀ op ∈ (signRawTransactionT env cmd).2.lookupCalls,
      lookupA inputs op = none) := by
  have htr := signRawTransactionT_trace_lookupCalls env cmd tx ht inputs
    scripts hw htx hf hbi
  have hchar : (signRawTransactionT env cmd).2.lookupCalls =
      if env.rpcAvailable = true then
        ((tx.txIns.enum.filter (fun p =>
            !(p.1 == 0 && cmd.flags == "ssgen") &&
            (lookupA inputs p.2.prevOut).isNone)).map (fun p => p.2.prevOut))
      else [] := by
    rw [htr]
    unfold lookupCallsOf
    cases hrpc : env.rpcAvailable
    · simp
    · simp only [if_pos rfl]
      rw [issueLookups_eq_enumFrom]
      rfl
  refine ⟨hchar, ?_⟩
  intro op hop
  rw [hchar] at hop
  by_cases hrpc : env.rpcAvailable = true
  · rw [if_pos hrpc] at hop
    simp only [List.mem_map] at hop
    obtain ⟨p, hp, rfl⟩ := hop
    have hmem := (List.mem_filter.mp hp).2
    simp only [Bool.and_eq_true, Option.isNone_iff_eq_none] at hmem
    exact hmem.2
  · rw [if_neg hrpc] at hop
    simp at hop

/-- A signing environment with a consensus RPC client that answers every
lookup with a JSON null result. -/
def envSignNullLookup : SignEnv :=
  { envSignBasic with
    parseTx := fun _ => some txW
    rpcAvailable := true
    getTxOut := fun _ => .ok none }

/-- Witness for C8: with a client attached and no explicit inputs, the
single uncovered input of the concrete transaction is looked up. -/
theorem signRawTransaction_fanout_witness :
    (signRawTransactionT envSignNullLookup cmdAllFlag).2.lookupCalls =
      (if envSignNullLookup.rpcAvailable = true then
        ((txW.txIns.enum.filter (fun p =>
            !(p.1 == 0 && cmdAllFlag.flags == "ssgen") &&
            (lookupA ([] : InputsMap) p.2.prevOut).isNone)).map
          (fun p => p.2.prevOut))
      else []) :=
  (signRawTransaction_fanout envSignNullLookup cmdAllFlag txW sigHashAll
    [] [] rfl rfl rfl rfl).1

/-! ## Multisig redemption orchestration (`redeemMultiSigOuts`) -/

/-- `vhcjson.RedeemMultiSigOutsCmd`. -/
structure RedeemMultiSigOutsCmd where
  fromScrAddress : String
  toAddress : Option String
  number : Option Int
  deriving DecidableEq, Repr

/-- A decoded address: its encoding plus whether the type assertion to
`*vhcutil.AddressScriptHash` succeeds on it. -/
structure Address where
  encoded : String
  isScriptHash : Bool
  deriving DecidableEq, Repr

/-- One unspent multisig credit enumerated by
`UnspentMultisigCreditsForAddress`. -/
structure MultisigCredit where
  outPoint : OutPoint
  deriving DecidableEq, Repr

/-- `vhcjson.RedeemMultiSigOutResult` (same shape as the sign result). -/
abbrev RedeemMultiSigOutResult := SignRawTransactionResult

/-- The Go zero value of `RedeemMultiSigOutResult`, which pre-fills the
bulk result array. -/
def defaultRedeemResult : RedeemMultiSigOutResult := ⟨"", false, []⟩

/-- Collaborators of `redeemMultiSigOuts`: the wallet loader, the address
codec, the wallet's unspent-multisig-credit enumeration, and the single
redemption operation `redeemMultiSigOut` (a handler of this same file,
treated as an oracle here because only the bulk loop is at issue). -/
structure RedeemEnv where
  walletLoaded : Bool
  decodeAddress : String → Option Address
  unspentMultisigCredits : Address → Except String (List MultisigCredit)
  redeemMultiSigOut : OutPoint → Option String →
    Except WErr RedeemMultiSigOutResult

/-- The bulk loop of `redeemMultiSigOuts`: iterate the enumerated credits
with index `i` and redemption counter `itr`, stopping when `itr > max`
(checked before each redemption, after `itr` increments), writing each
result into slot `i` of the pre-sized array, and aborting on the first
redemption error.  Also returns the outpoints actually redeemed, in
order. -/
def redeemLoop (env : RedeemEnv) (toAddress : Option String) (max : Nat) :
    List MultisigCredit → Nat → Nat → List RedeemMultiSigOutResult →
    Except WErr (List RedeemMultiSigOutResult) × List OutPoint
  | [], _, _, acc => (.ok acc, [])
  | mso :: rest, i, itr, acc =>
    if itr > max then (.ok acc, [])
    else
      match env.redeemMultiSigOut mso.outPoint toAddress with
      | .error e => (.error e, [mso.outPoint])
      | .ok r =>
        let p := redeemLoop env toAddress max rest (i + 1) (itr + 1)
          (acc.set i r)
        (p.1, mso.outPoint :: p.2)

/-- `redeemMultiSigOuts` from rpcserver.go: decode the script-hash
address, enumerate its unspent multisig credits, and redeem them through
repeated single redemptions up to the cap (`0xffffffff` when no `Number`
was given; Go truncates `uint32(*cmd.Number)`). -/
def redeemMultiSigOutsT (env : RedeemEnv) (cmd : RedeemMultiSigOutsCmd) :
    Except WErr (List RedeemMultiSigOutResult) × List OutPoint :=
  if env.walletLoaded = true then
    match env.decodeAddress cmd.fromScrAddress with
    | none => (.error (.plain "decode address"), [])
    | some addr =>
      if addr.isScriptHash = true then
        match env.unspentMultisigCredits addr with
        | .error e => (.error (.plain e), [])
        | .ok msos =>
          let max : Nat := match cmd.number with
            | none => 4294967295
            | some n => (n % 4294967296).toNat
          redeemLoop env cmd.toAddress max msos 0 0
            (List.replicate msos.length defaultRedeemResult)
      else (.error (.rpc ⟨.invalidParameter, "address is not P2SH"⟩), [])
  else (.error (.rpc errUnloadedWallet), [])

/-- Outpoints of the three unspent multisig outputs used for C3. -/
def o1 : OutPoint := ⟨1, 0, 0⟩
def o2 : OutPoint := ⟨2, 0, 0⟩
def o3 : OutPoint := ⟨3, 0, 0⟩

/-- The single-redemption result returned by the C3 oracle. -/
def rRes : RedeemMultiSigOutResult := ⟨"abcd", true, []⟩

/-- A redemption environment over a script-hash address owning three
unspent threshold outputs, whose single redemptions all succeed. -/
def envRedeem3 : RedeemEnv where
  walletLoaded := true
  decodeAddress := fun s => some ⟨s, true⟩
  unspentMultisigCredits := fun _ => .ok [⟨o1⟩, ⟨o2⟩, ⟨o3⟩]
  redeemMultiSigOut := fun _ _ => .ok rRes

/-- A bulk redemption request with a caller-supplied cap of 2. -/
def cmdRedeemCap2 : RedeemMultiSigOutsCmd := ⟨"scriptAddr", none, some 2⟩

/-- C3 counterexample: over a script-hash address with 3 unspent
threshold outputs and a cap of 2, the code redeems all three outputs and
returns 3 results — not 2 results with the third output untouched, as
claimed: the loop's `itr > max` check runs one redemption late. -/
theorem redeemMultiSigOuts_cap_counterexample :
    (redeemMultiSigOutsT envRedeem3 cmdRedeemCap2).2 = [o1, o2, o3] ∧
    (redeemMultiSigOutsT envRedeem3 cmdRedeemCap2).1 =
      .ok [rRes, rRes, rRes] ∧
    ¬((∃ rs, (redeemMultiSigOutsT envRedeem3 cmdRedeemCap2).1 = .ok rs ∧
          rs.length = 2) ∧
      o3 ∉ (redeemMultiSigOutsT envRedeem3 cmdRedeemCap2).2) := by
  refine ⟨by decide, rfl, ?_⟩
  rintro ⟨⟨rs, hrs, hlen⟩, hmem⟩
  have h2 : (redeemMultiSigOutsT envRedeem3 cmdRedeemCap2).1 =
      .ok [rRes, rRes, rRes] := rfl
  rw [h2] at hrs
  injection hrs with hrs'
  subst hrs'
  simp at hlen

/-- C3 amended: bulk redemption over a script-hash address with 3
unspent threshold outputs and a caller-supplied cap of 2 redeems all
three outputs (the inclusive cap check `itr > max` permits up to cap+1
redemptions) and returns exactly 3 results, in the collaborator's
enumeration order. -/
theorem redeemMultiSigOuts_cap2_redeems_three (env : RedeemEnv)
    (cmd : RedeemMultiSigOutsCmd) (addr : Address)
    (c1 c2 c3 : MultisigCredit) (r1 r2 r3 : RedeemMultiSigOutResult)
    (hw : env.walletLoaded = true)
    (hd : env.decodeAddress cmd.fromScrAddress = some addr)
    (hp : addr.isScriptHash = true)
    (hm : env.unspentMultisigCredits addr = .ok [c1, c2, c3])
    (hn : cmd.number = some 2)
    (h1 : env.redeemMultiSigOut c1.outPoint cmd.toAddress = .ok r1)
    (h2 : env.redeemMultiSigOut c2.outPoint cmd.toAddress = .ok r2)
    (h3 : env.redeemMultiSigOut c3.outPoint cmd.toAddress = .ok r3) :
    redeemMultiSigOutsT env cmd =
      (.ok [r1, r2, r3], [c1.outPoint, c2.outPoint, c3.outPoint]) := by
  have hmax : ((2 : Int) % 4294967296).toNat = 2 := by decide
  simp [redeemMultiSigOutsT, hw, hd, hp, hm, hn, hmax, redeemLoop,
    h1, h2, h3, List.replicate]

/-- Witness for the amended C3 theorem at the concrete environment. -/
theorem redeemMultiSigOuts_cap2_redeems_three_witness :
    redeemMultiSigOutsT envRedeem3 cmdRedeemCap2 =
      (.ok [rRes, rRes, rRes], [o1, o2, o3]) :=
  redeemMultiSigOuts_cap2_redeems_three envRedeem3 cmdRedeemCap2
    ⟨"scriptAddr", true⟩ ⟨o1⟩ ⟨o2⟩ ⟨o3⟩ rRes rRes rRes
    rfl rfl rfl rfl rfl rfl rfl rfl

/-! ## Ticket automation (`startAutoBuyer`) and manual purchase
(`purchaseTicket`)

Monetary `float64` fields are modelled as `Rat` (NaN and infinities, the
only decode-failure cases of `vhcutil.NewAmount`, are not representable). -/

/-- `vhcutil.NewAmount`: a coin amount in atoms, rounded half away from
zero as Go `math.Round(f * 1e8)` does. -/
def newAmount (r : Rat) : Int :=
  if r < 0 then -⌊-r * 100000000 + 1 / 2⌋
  else ⌊r * 100000000 + 1 / 2⌋

/-- `vhcjson.StartAutoBuyerCmd` (pointer fields as options;
`passphrase` is required). -/
structure StartAutoBuyerCmd where
  passphrase : String
  balanceToMaintain : Option Rat
  maxFeePerKb : Option Rat
  maxPriceAbsolute : Option Rat
  maxPriceRelative : Option Rat
  maxPerBlock : Option Int
  votingAddress : Option String
  poolAddress : Option String
  poolFees : Option Rat
  deriving DecidableEq, Repr

/-- The `ticketbuyer.Config` fields written by `startAutoBuyer`. -/
structure TicketBuyerConfig where
  balanceToMaintainAbsolute : Rat
  maxFee : Rat
  maxPriceAbsolute : Rat
  maxPriceRelative : Rat
  maxPerBlock : Int
  votingAddress : Option Address
  poolAddress : Option Address
  poolFees : Rat
  deriving DecidableEq, Repr

/-- Collaborators of `startAutoBuyer`: the wallet loader, the server's
default ticket-buyer configuration, the address codec, the
`txrules.ValidPoolFeeRate` predicate (external package), and the wallet
loader's `StartTicketPurchase` (the Stopped→Running transition of the
automation engine). -/
structure AutoBuyerEnv where
  walletLoaded : Bool
  ticketbuyerConfig : TicketBuyerConfig
  decodeAddress : String → Option Address
  validPoolFeeRate : Rat → Bool
  startTicketPurchase : String → TicketBuyerConfig → Except GoError Unit

/-- One `if cmd.X != nil { if *cmd.X < 0 { invalid-parameter }; set }`
validation block of `startAutoBuyer` (the Go message interpolates the
offending value; the embedded message keeps the field name). -/
def applyNonNegRat (cur : Rat) (field : Option Rat) (nm : String) :
    Except WErr Rat :=
  match field with
  | none => .ok cur
  | some v =>
    if v < 0 then
      .error (.rpc ⟨.invalidParameter, nm ++ " must be non-negative"⟩)
    else .ok v

/-- The `MaxPerBlock` validation block (an integer field). -/
def applyNonNegInt (cur : Int) (field : Option Int) (nm : String) :
    Except WErr Int :=
  match field with
  | none => .ok cur
  | some v =>
    if v < 0 then
      .error (.rpc ⟨.invalidParameter, nm ++ " must be non-negative"⟩)
    else .ok v

/-- The voting-address block of `startAutoBuyer`: an absent or empty
field keeps the configured default; a non-empty field must decode. -/
def resolveVotingAddress (decode : String → Option Address)
    (cur : Option Address) (field : Option String) :
    Except WErr (Option Address) :=
  match field with
  | none => .ok cur
  | some s =>
    if s = "" then .ok cur
    else
      match decode s with
      | none => .error (.plain "decode address")
      | some a => .ok (some a)

/-- The pool-address block: a local variable starting at nil, set only by
a non-empty field that decodes. -/
def resolvePoolAddress (decode : String → Option Address)
    (field : Option String) : Except WErr (Option Address) :=
  match field with
  | none => .ok none
  | some s =>
    if s = "" then .ok none
    else
      match decode s with
      | none => .error (.plain "decode address")
      | some a => .ok (some a)

/-- `startAutoBuyer` from rpcserver.go, with the invocation of
`StartTicketPurchase` traced (`some (passphrase, config)` exactly when
the engine start was invoked): validate each supplied config field as
non-negative, decode the optional addresses, require pool fees and pool
address together with a valid fee rate, then start the engine. -/
def startAutoBuyerT (env : AutoBuyerEnv) (cmd : StartAutoBuyerCmd) :
    Except WErr Unit × Option (String × TicketBuyerConfig) :=
  if env.walletLoaded = true then
    match applyNonNegRat env.ticketbuyerConfig.balanceToMaintainAbsolute
        cmd.balanceToMaintain "balancetomaintain" with
    | .error e => (.error e, none)
    | .ok btm =>
    match applyNonNegRat env.ticketbuyerConfig.maxFee cmd.maxFeePerKb
        "maxfeeperkb" with
    | .error e => (.error e, none)
    | .ok mf =>
    match applyNonNegRat env.ticketbuyerConfig.maxPriceAbsolute
        cmd.maxPriceAbsolute "maxpriceabsolute" with
    | .error e => (.error e, none)
    | .ok mpa =>
    match applyNonNegRat env.ticketbuyerConfig.maxPriceRelative
        cmd.maxPriceRelative "maxpricerelative" with
    | .error e => (.error e, none)
    | .ok mpr =>
    match applyNonNegInt env.ticketbuyerConfig.maxPerBlock cmd.maxPerBlock
        "maxperblock" with
    | .error e => (.error e, none)
    | .ok mpb =>
    match resolveVotingAddress env.decodeAddress
        env.ticketbuyerConfig.votingAddress cmd.votingAddress with
    | .error e => (.error e, none)
    | .ok va =>
    match resolvePoolAddress env.decodeAddress cmd.poolAddress with
    | .error e => (.error e, none)
    | .ok poolAddr =>
      if cmd.poolFees.getD 0 = 0 ∧ poolAddr ≠ none then
        (.error (.rpc ⟨.invalidParameter, "pooladdress set without poolfees"⟩),
         none)
      else if cmd.poolFees.getD 0 ≠ 0 ∧ poolAddr = none then
        (.error (.rpc ⟨.invalidParameter, "poolfees set without pooladdress"⟩),
         none)
      else if cmd.poolFees.getD 0 ≠ 0 ∧ poolAddr ≠ none ∧
          env.validPoolFeeRate (cmd.poolFees.getD 0) = false then
        (.error (.rpc ⟨.invalidParameter, "invalid poolfees"⟩), none)
      else
        match env.startTicketPurchase cmd.passphrase
            ⟨btm, mf, mpa, mpr, mpb, va, poolAddr, cmd.poolFees.getD 0⟩ with
        | .error e =>
          (.error e,
           some (cmd.passphrase, ⟨btm, mf, mpa, mpr, mpb, va, poolAddr,
             cmd.poolFees.getD 0⟩))
        | .ok _ =>
          (.ok (),
           some (cmd.passphrase, ⟨btm, mf, mpa, mpr, mpb, va, poolAddr,
             cmd.poolFees.getD 0⟩))
  else (.error (.rpc errUnloadedWallet), none)

/-- `vhcjson.PurchaseTicketCmd` (the `Comment` field is unused by the
handler and omitted). -/
structure PurchaseTicketCmd where
  fromAccount : String
  spendLimit : Rat
  minConf : Option Int
  ticketAddress : Option String
  numTickets : Option Int
  poolAddress : Option String
  poolFees : Option Rat
  expiry : Option Int
  ticketFee : Option Rat
  deriving DecidableEq, Repr

/-- The argument record of one `w.PurchaseTickets` invocation.  (The Go
`int32` narrowing of `minConf` and `expiry` is elided; no claim concerns
values outside int32 range.) -/
structure PurchaseArgs where
  minBalance : Int
  spendLimit : Int
  minConf : Int
  ticketAddress : Option Address
  account : Nat
  numTickets : Int
  poolAddress : Option Address
  poolFee : Rat
  expiry : Int
  txFee : Int
  ticketFee : Int
  deriving DecidableEq, Repr

/-- Collaborators of `purchaseTicket`: the wallet loader, account lookup
(`none` models the not-found case), the address codec, the
`txrules.ValidPoolFeeRate` predicate, the wallet's fee settings, and the
wallet's ticket-purchase operation returning the purchased transaction
hashes. -/
structure PurchaseEnv where
  walletLoaded : Bool
  accountNumber : String → Option Nat
  decodeAddress : String → Option Address
  validPoolFeeRate : Rat → Bool
  ticketFeeIncrement : Int
  relayFee : Int
  purchaseTickets : PurchaseArgs → Except GoError (List Nat)

/-- The ticket-address block of `purchaseTicket`: absent or empty leaves
the address nil; non-empty must decode. -/
def resolveTicketAddress (decode : String → Option Address)
    (field : Option String) : Except WErr (Option Address) :=
  match field with
  | none => .ok none
  | some s =>
    if s = "" then .ok none
    else
      match decode s with
      | none => .error (.plain "decode address")
      | some a => .ok (some a)

/-- The pool block of `purchaseTicket`: a non-empty pool address must
decode, requires pool fees to be supplied with it, and the fee rate must
be valid; otherwise both stay at their zero values. -/
def resolvePurchasePool (env : PurchaseEnv) (addrField : Option String)
    (feeField : Option Rat) : Except WErr (Option Address × Rat) :=
  match addrField with
  | none => .ok (none, 0)
  | some s =>
    if s = "" then .ok (none, 0)
    else
      match env.decodeAddress s with
      | none => .error (.plain "decode address")
      | some a =>
        match feeField with
        | none =>
          .error (.rpc ⟨.invalidParameter, "pool address set without pool fee"⟩)
        | some pf =>
          if env.validPoolFeeRate pf = false then
            .error (.rpc ⟨.invalidParameter, "pool fee percentage"⟩)
          else .ok (some a, pf)

/-- `purchaseTicket` from rpcserver.go, with the `w.PurchaseTickets`
invocation traced: convert and range-check the spend limit (the code
rejects only strictly negative limits), resolve the account, minimum
confirmations, optional addresses and pool fee, clamp the requested
ticket count up to a minimum of 1, then request the purchases. -/
def purchaseTicketT (env : PurchaseEnv) (cmd : PurchaseTicketCmd) :
    Except WErr (List Nat) × Option PurchaseArgs :=
  if env.walletLoaded = true then
    if newAmount cmd.spendLimit < 0 then
      (.error (.rpc ⟨.invalidParameter, "negative spend limit"⟩), none)
    else
      match env.accountNumber cmd.fromAccount with
      | none => (.error (.rpc errAccountNotFound), none)
      | some account =>
        if cmd.minConf.getD 1 < 0 then
          (.error (.rpc ⟨.invalidParameter, "negative minconf"⟩), none)
        else
          match resolveTicketAddress env.decodeAddress cmd.ticketAddress with
          | .error e => (.error e, none)
          | .ok ticketAddr =>
            let numTickets : Int :=
              match cmd.numTickets with
              | none => 1
              | some n => if n > 1 then n else 1
            match resolvePurchasePool env cmd.poolAddress cmd.poolFees with
            | .error e => (.error e, none)
            | .ok (poolAddr, poolFee) =>
              let ticketFee : Int :=
                match cmd.ticketFee with
                | none => env.ticketFeeIncrement
                | some f => newAmount f
              let args : PurchaseArgs :=
                ⟨0, newAmount cmd.spendLimit, cmd.minConf.getD 1, ticketAddr,
                 account, numTickets, poolAddr, poolFee, cmd.expiry.getD 0,
                 env.relayFee, ticketFee⟩
              (match env.purchaseTickets args with
               | .error e => .error e
               | .ok hashes => .ok hashes,
               some args)
  else (.error (.rpc errUnloadedWallet), none)

/-- C6: once the per-field range validations and address decodes pass,
`startAutoBuyer` with non-zero pool fees and no pool address (or a pool
address and zero pool fees, or a pool fee the protocol predicate rejects)
returns an invalid-parameter error without ever invoking the start of the
ticket-purchase engine — the automation state remains Stopped; with both
supplied and the fee rate valid, the engine start is invoked. -/
theorem startAutoBuyer_pool_validation (env : AutoBuyerEnv)
    (cmd : StartAutoBuyerCmd) (btm mf mpa mpr : Rat) (mpb : Int)
    (va poolAddr : Option Address)
    (hw : env.walletLoaded = true)
    (h1 : applyNonNegRat env.ticketbuyerConfig.balanceToMaintainAbsolute
      cmd.balanceToMaintain "balancetomaintain" = .ok btm)
    (h2 : applyNonNegRat env.ticketbuyerConfig.maxFee cmd.maxFeePerKb
      "maxfeeperkb" = .ok mf)
    (h3 : applyNonNegRat env.ticketbuyerConfig.maxPriceAbsolute
      cmd.maxPriceAbsolute "maxpriceabsolute" = .ok mpa)
    (h4 : applyNonNegRat env.ticketbuyerConfig.maxPriceRelative
      cmd.maxPriceRelative "maxpricerelative" = .ok mpr)
    (h5 : applyNonNegInt env.ticketbuyerConfig.maxPerBlock cmd.maxPerBlock
      "maxperblock" = .ok mpb)
    (hva : resolveVotingAddress env.decodeAddress
      env.ticketbuyerConfig.votingAddress cmd.votingAddress = .ok va)
    (hpa : resolvePoolAddress env.decodeAddress cmd.poolAddress =
      .ok poolAddr) :
    (cmd.poolFees.getD 0 ≠ 0 ∧ poolAddr = none →
      startAutoBuyerT env cmd =
        (.error (.rpc ⟨.invalidParameter, "poolfees set without pooladdress"⟩),
         none)) ∧
    (cmd.poolFees.getD 0 = 0 ∧ poolAddr ≠ none →
      startAutoBuyerT env cmd =
        (.error (.rpc ⟨.invalidParameter, "pooladdress set without poolfees"⟩),
         none)) ∧
    (cmd.poolFees.getD 0 ≠ 0 ∧ poolAddr ≠ none ∧
        env.validPoolFeeRate (cmd.poolFees.getD 0) = false →
      startAutoBuyerT env cmd =
        (.error (.rpc ⟨.invalidParameter, "invalid poolfees"⟩), none)) ∧
    (cmd.poolFees.getD 0 ≠ 0 ∧ poolAddr ≠ none ∧
        env.validPoolFeeRate (cmd.poolFees.getD 0) = true →
      (startAutoBuyerT env cmd).2 =
        some (cmd.passphrase,
          ⟨btm, mf, mpa, mpr, mpb, va, poolAddr, cmd.poolFees.getD 0⟩)) := by
  refine ⟨?_, ?_, ?_, ?_⟩
  · rintro ⟨hpf, rfl⟩
    simp [startAutoBuyerT, hw, h1, h2, h3, h4, h5, hva, hpa, hpf]
  · rintro ⟨hpf, hpn⟩
    simp [startAutoBuyerT, hw, h1, h2, h3, h4, h5, hva, hpa, hpf, hpn]
  · rintro ⟨hpf, hpn, hv⟩
    simp [startAutoBuyerT, hw, h1, h2, h3, h4, h5, hva, hpa, hpf, hpn, hv]
  · rintro ⟨hpf, hpn, hv⟩
    cases hst : env.startTicketPurchase cmd.passphrase
        ⟨btm, mf, mpa, mpr, mpb, va, poolAddr, cmd.poolFees.getD 0⟩ <;>
      simp [startAutoBuyerT, hw, h1, h2, h3, h4, h5, hva, hpa, hpf, hpn,
        hv, hst]

/-- A ticket-automation environment whose oracles all succeed and whose
pool-fee predicate accepts everything. -/
def envAutoBuyer : AutoBuyerEnv where
  walletLoaded := true
  ticketbuyerConfig := ⟨0, 0, 0, 0, 0, none, none, 0⟩
  decodeAddress := fun s => some ⟨s, true⟩
  validPoolFeeRate := fun _ => true
  startTicketPurchase := fun _ _ => .ok ()

/-- A start request supplying pool fees of 2.5 and no pool address. -/
def cmdPoolFeesOnly : StartAutoBuyerCmd :=
  ⟨"pass", none, none, none, none, none, none, none, some (5 / 2)⟩

/-- Witness for C6: pool fees 2.5 without a pool address is rejected with
an invalid-parameter error and the engine start is never invoked. -/
theorem startAutoBuyer_pool_validation_witness :
    startAutoBuyerT envAutoBuyer cmdPoolFeesOnly =
      (.error (.rpc ⟨.invalidParameter, "poolfees set without pooladdress"⟩),
       none) :=
  (startAutoBuyer_pool_validation envAutoBuyer cmdPoolFeesOnly 0 0 0 0 0
    none none rfl rfl rfl rfl rfl rfl rfl rfl).1
    ⟨by norm_num [cmdPoolFeesOnly, Option.getD], rfl⟩

/-- A purchase environment whose oracles all succeed. -/
def envPurchase : PurchaseEnv where
  walletLoaded := true
  accountNumber := fun _ => some 0
  decodeAddress := fun s => some ⟨s, false⟩
  validPoolFeeRate := fun _ => true
  ticketFeeIncrement := 10
  relayFee := 20
  purchaseTickets := fun _ => .ok [42]

/-- A purchase request whose spend limit is exactly 0. -/
def cmdZeroSpend : PurchaseTicketCmd :=
  ⟨"default", 0, none, none, none, none, none, none, none⟩

/-- C7 (code bug): the handler's own comment reads "Enforce valid and
positive spend limit", but the code checks only `spendLimit < 0`; a
request with spend limit exactly 0 — not positive — is not rejected with
an invalid-parameter error and instead proceeds to request a ticket
purchase from the wallet collaborator. -/
theorem purchaseTicket_zero_spend_limit_not_rejected :
    (purchaseTicketT envPurchase cmdZeroSpend).1 = .ok [42] ∧
    (purchaseTicketT envPurchase cmdZeroSpend).2 =
      some ⟨0, 0, 1, none, 0, 1, none, 0, 0, 20, 10⟩ := by
  have hna : newAmount (0 : Rat) = 0 := by norm_num [newAmount]
  constructor <;>
    simp [purchaseTicketT, envPurchase, cmdZeroSpend, hna,
      resolveTicketAddress, resolvePurchasePool]

/-- C10: for every `purchaseTicket` request that reaches the wallet's
ticket-purchase operation, a requested ticket count that is absent or at
most 1 (including zero and negatives) results in exactly 1 ticket being
requested; a count greater than 1 is passed through unchanged. -/
theorem purchaseTicket_numTickets_clamped (env : PurchaseEnv)
    (cmd : PurchaseTicketCmd) (args : PurchaseArgs)
    (h : (purchaseTicketT env cmd).2 = some args) :
    (args.numTickets = match cmd.numTickets with
      | none => 1
      | some n => if n > 1 then n else 1) ∧
    ((cmd.numTickets = none ∨ ∃ n, n ≤ 1 ∧ cmd.numTickets = some n) →
      args.numTickets = 1) ∧
    (∀ n : Int, cmd.numTickets = some n → 1 < n → args.numTickets = n) := by
  have hnum : args.numTickets = match cmd.numTickets with
      | none => 1
      | some n => if n > 1 then n else 1 := by
    cases hw : env.walletLoaded <;>
      simp only [purchaseTicketT, hw, Bool.false_eq_true, if_false,
        if_true] at h
    · simp at h
    · by_cases hsl : newAmount cmd.spendLimit < 0
      · rw [if_pos hsl] at h; simp at h
      · rw [if_neg hsl] at h
        cases hacc : env.accountNumber cmd.fromAccount <;>
          simp only [hacc] at h
        · simp at h
        · by_cases hmc : cmd.minConf.getD 1 < 0
          · rw [if_pos hmc] at h; simp at h
          · rw [if_neg hmc] at h
            cases hta : resolveTicketAddress env.decodeAddress
                cmd.ticketAddress <;> simp only [hta] at h
            · simp at h
            · cases hpp : resolvePurchasePool env cmd.poolAddress
                  cmd.poolFees <;> simp only [hpp] at h
              · simp at h
              · case _ p =>
                obtain ⟨poolAddr, poolFee⟩ := p
                simp only [Option.some.injEq] at h
                subst h
                rfl
  refine ⟨hnum, ?_, ?_⟩
  · rintro (hn | ⟨n, hle, hn⟩) <;> rw [hnum, hn]
    simp [show ¬(1 < n) from by omega]
  · intro n hn hlt
    rw [hnum, hn]
    simp [hlt]

/-- A purchase request asking for zero tickets. -/
def cmdZeroTickets : PurchaseTicketCmd :=
  ⟨"default", 1, none, none, some 0, none, none, none, none⟩

/-- Witness for C10: a concrete request with `NumTickets = 0` reaches the
wallet with exactly one ticket requested. -/
theorem purchaseTicket_numTickets_clamped_witness :
    (⟨0, 100000000, 1, none, 0, 1, none, 0, 0, 20, 10⟩ :
        PurchaseArgs).numTickets = 1 :=
  (purchaseTicket_numTickets_clamped envPurchase cmdZeroTickets
    ⟨0, 100000000, 1, none, 0, 1, none, 0, 0, 20, 10⟩ (by
      have hna : newAmount (1 : Rat) = 100000000 := by norm_num [newAmount]
      simp [purchaseTicketT, envPurchase, cmdZeroTickets, hna,
        resolveTicketAddress, resolvePurchasePool])).2.1
    (Or.inr ⟨0, by norm_num, rfl⟩)

end VhcWallet
